import Mathlib

/-
Verification development for the go-challenge-2 secure echo transport.

The repository contains two Go programs sharing one protocol:
  * main.go: SecureReader / SecureWriter over a precomputed shared key
    (box.Precompute + SealAfterPrecomputation / OpenAfterPrecomputation).
  * part_000: Box (Encrypt / Decrypt via box.Seal / box.Open), Reader,
    Writer, Dial, Serve and the per-connection handle loop.

Bytes are modelled as Nat (with explicit bounds b < 256 where overflow
matters), byte strings as List Nat, 32-byte keys as Nat.

The NaCl primitives live in the external library golang.org/x/crypto and
are modelled by an idealized executable cipher that keeps the properties
the code relies on: Curve25519 key agreement is modelled as discrete
exponentiation (so both sides derive the same shared key), and
XSalsa20-Poly1305 is modelled as a position-keyed additive stream cipher
plus a 16-byte tag that binds the key, the nonce, and the ciphertext body
including its length (so truncation or tampering is detected, as the
Poly1305 tag guarantees). Seal output layout, Open length checks and the
Overhead = 16 check follow the library code exactly.
-/

namespace Challenge2

/-- Accumulating hash of a byte list, used by the idealized cipher model. -/
def foldBytes (l : List Nat) : Nat :=
  l.foldl (fun a b => (a * 131 + b + 7) % 65536) 5

/-- Idealized XSalsa20 keystream byte at position i under (key, nonce). -/
def keystream (key : Nat) (nonce : List Nat) (i : Nat) : Nat :=
  (key + foldBytes nonce * 3 + i * 7 + 11) % 256

/-- Stream-encrypt bytes starting at keystream position i. -/
def encBytes (key : Nat) (nonce : List Nat) : Nat → List Nat → List Nat
  | _, [] => []
  | i, b :: bs => (b + keystream key nonce i) % 256 :: encBytes key nonce (i + 1) bs

/-- Stream-decrypt bytes starting at keystream position i. -/
def decBytes (key : Nat) (nonce : List Nat) : Nat → List Nat → List Nat
  | _, [] => []
  | i, b :: bs => (b + (256 - keystream key nonce i)) % 256 :: decBytes key nonce (i + 1) bs

/-- Byte i of the idealized authenticator over (key, nonce, body). -/
def digestByte (key : Nat) (nonce body : List Nat) (i : Nat) : Nat :=
  (key + foldBytes nonce * 3 + foldBytes body * 5 + i * 13 + 1) % 256

/-- Idealized 16-byte Poly1305 tag: three bytes binding the body length
plus thirteen digest bytes binding key, nonce and body content. -/
def tagFn (key : Nat) (nonce body : List Nat) : List Nat :=
  body.length % 256 :: body.length / 256 % 256 :: body.length / 65536 % 256 ::
    (List.range 13).map (digestByte key nonce body)

/-- Model of secretbox.Seal: output is tag (16 bytes) followed by the
stream-encrypted message, exactly Overhead = 16 bytes longer than m. -/
def secretboxSeal (key : Nat) (nonce m : List Nat) : List Nat :=
  tagFn key nonce (encBytes key nonce 0 m) ++ encBytes key nonce 0 m

/-- Model of secretbox.Open: inputs shorter than Overhead = 16 are rejected
immediately; otherwise the tag is recomputed and compared, and only a
matching tag yields the decrypted message. -/
def secretboxOpen (key : Nat) (nonce c : List Nat) : Option (List Nat) :=
  if c.length < 16 then none
  else if c.take 16 = tagFn key nonce (c.drop 16) then
    some (decBytes key nonce 0 (c.drop 16))
  else none

/-- Curve25519 base point value used by the key agreement model. -/
def curveBase : Nat := 9

/-- Model of box.GenerateKey: the public key obtained from a private
scalar, modelled as discrete exponentiation over the base. -/
def pubOf (priv : Nat) : Nat := curveBase ^ priv

/-- Model of box.Precompute: the shared key derived from a peer public key
and a local private key, modelled as exponentiation so that both peers
derive the identical value. -/
def precompute (pub priv : Nat) : Nat := pub ^ priv

/-- generateSharedKey from main.go: calls box.Precompute(shared, pub, priv). -/
def generateSharedKey (priv pub : Nat) : Nat := precompute pub priv

/-- Frame built by SealAfterPrecomputation with the nonce slice as the out
parameter: nonce (24 bytes) followed by the secretbox output. -/
def sealFrame (key : Nat) (nonce m : List Nat) : List Nat :=
  nonce ++ secretboxSeal key nonce m

/-- Outcome of decoding a frame. The panicked constructor records a Go
runtime panic (slice bounds out of range), which the Go code hits when it
evaluates em[24:] on a frame shorter than 24 bytes. -/
inductive DecryptResult where
  | ok (m : List Nat)
  | err
  | panicked
deriving DecidableEq

/-- Frame decode as performed by the Go code around OpenAfterPrecomputation:
copy the first 24 bytes as the nonce, then open em[24:]. Evaluating em[24:]
on a frame shorter than 24 bytes panics before any AEAD work happens. -/
def openFrame (key : Nat) (em : List Nat) : DecryptResult :=
  if em.length < 24 then .panicked
  else
    match secretboxOpen key (em.take 24) (em.drop 24) with
    | some dm => .ok dm
    | none => .err

/-- Box.Encrypt from part_000: draws the nonce (passed here as the randomness
that rand.Read produced) and calls box.Seal with the nonce slice as out,
yielding nonce plus secretbox output under the precomputed key. -/
def boxEncrypt (peersPub priv : Nat) (nonce m : List Nat) : List Nat :=
  sealFrame (precompute peersPub priv) nonce m

/-- Box.Decrypt from part_000: box.Open equals precompute followed by
OpenAfterPrecomputation, so it shares the frame decode with main.go. -/
def boxDecrypt (peersPub priv : Nat) (em : List Nat) : DecryptResult :=
  openFrame (precompute peersPub priv) em

theorem keystream_lt (key : Nat) (nonce : List Nat) (i : Nat) :
    keystream key nonce i < 256 :=
  Nat.mod_lt _ (by omega)

theorem encBytes_length (key : Nat) (nonce : List Nat) :
    ∀ (p : List Nat) (i : Nat), (encBytes key nonce i p).length = p.length := by
  intro p
  induction p with
  | nil => intro i; rfl
  | cons b bs ih => intro i; simp [encBytes, ih]

theorem decBytes_encBytes (key : Nat) (nonce : List Nat) :
    ∀ (p : List Nat) (i : Nat), (∀ b ∈ p, b < 256) →
      decBytes key nonce i (encBytes key nonce i p) = p := by
  intro p
  induction p with
  | nil => intro i _; rfl
  | cons b bs ih =>
    intro i hp
    have hb : b < 256 := hp b (by simp)
    have hk : keystream key nonce i < 256 := keystream_lt key nonce i
    simp only [encBytes, decBytes, List.cons.injEq]
    refine ⟨by omega, ih (i + 1) (fun x hx => hp x (by simp [hx]))⟩

theorem tagFn_length (key : Nat) (nonce body : List Nat) :
    (tagFn key nonce body).length = 16 := by
  simp [tagFn]

/-- A matching tag forces matching body length below 2 to the 24. -/
theorem tagFn_eq_length (key : Nat) (nonce b1 b2 : List Nat)
    (h : tagFn key nonce b1 = tagFn key nonce b2) :
    b1.length % 16777216 = b2.length % 16777216 := by
  simp only [tagFn, List.cons.injEq] at h
  obtain ⟨h1, h2, h3, _⟩ := h
  omega

theorem secretboxOpen_seal (key : Nat) (nonce m : List Nat)
    (hm : ∀ b ∈ m, b < 256) :
    secretboxOpen key nonce (secretboxSeal key nonce m) = some m := by
  have htag := tagFn_length key nonce (encBytes key nonce 0 m)
  unfold secretboxOpen secretboxSeal
  rw [List.take_left' htag, List.drop_left' htag]
  have hlen : (tagFn key nonce (encBytes key nonce 0 m) ++ encBytes key nonce 0 m).length =
      16 + m.length := by
    simp [htag, encBytes_length]
  rw [if_neg (by omega), if_pos rfl, decBytes_encBytes key nonce m 0 hm]

theorem sealFrame_length (key : Nat) (nonce m : List Nat) (hn : nonce.length = 24) :
    (sealFrame key nonce m).length = m.length + 40 := by
  simp [sealFrame, secretboxSeal, tagFn_length, encBytes_length, hn]
  omega

theorem sealFrame_take24 (key : Nat) (nonce m : List Nat) (hn : nonce.length = 24) :
    (sealFrame key nonce m).take 24 = nonce :=
  List.take_left' hn

theorem openFrame_sealFrame (key : Nat) (nonce m : List Nat)
    (hn : nonce.length = 24) (hm : ∀ b ∈ m, b < 256) :
    openFrame key (sealFrame key nonce m) = .ok m := by
  have hl : (sealFrame key nonce m).length = m.length + 40 :=
    sealFrame_length key nonce m hn
  unfold openFrame
  rw [if_neg (by omega)]
  unfold sealFrame
  rw [List.take_left' hn, List.drop_left' hn, secretboxOpen_seal key nonce m hm]

/-- Both peers derive the identical shared key from their own private key
and the other side public key. -/
theorem generateSharedKey_comm (a b : Nat) :
    generateSharedKey a (pubOf b) = generateSharedKey b (pubOf a) := by
  unfold generateSharedKey precompute pubOf
  exact pow_right_comm curveBase b a

/-- C1: for every plaintext byte sequence (empty included) and every pair of
valid key pairs, opening with the key derived from (B_priv, A_pub) a frame
sealed under the key derived from (A_priv, B_pub) returns exactly the
plaintext. -/
theorem c1_box_roundtrip (m nonce : List Nat) (aPriv aPub bPriv bPub : Nat)
    (ha : aPub = pubOf aPriv) (hb : bPub = pubOf bPriv)
    (hn : nonce.length = 24) (hm : ∀ b ∈ m, b < 256) :
    openFrame (generateSharedKey bPriv aPub)
      (sealFrame (generateSharedKey aPriv bPub) nonce m) = .ok m := by
  subst ha hb
  rw [generateSharedKey_comm bPriv aPriv]
  exact openFrame_sealFrame _ nonce m hn hm

/-- C1 witness: concrete key pairs (priv 2 and priv 3), a 24-byte nonce and
the plaintext "hi" round-trip across the two derived keys. -/
theorem c1_witness :
    openFrame (generateSharedKey 3 (pubOf 2))
      (sealFrame (generateSharedKey 2 (pubOf 3)) (List.replicate 24 1) [104, 105]) =
      .ok [104, 105] :=
  c1_box_roundtrip [104, 105] (List.replicate 24 1) 2 (pubOf 2) 3 (pubOf 3)
    rfl rfl (by simp) (by decide)

/-- MAX_BUFFER from part_000: size of the per-iteration read buffer of the
echo loop in handle. -/
def MAX_BUFFER : Nat := 1024

/-- SecureWriter.Write from main.go, with the underlying io.Writer modelled
as a function from the written bytes to its (count, error) result and the
nonce argument standing for the bytes rand.Read produced (the rand failure
branch aborts before sealing and is not modelled). The code seals, performs
one underlying write, and on success returns len(em), the full frame
length. -/
def secureWriterWrite (key : Nat) (nonce p : List Nat)
    (uwrite : List Nat → Except String Nat) : Except String Nat :=
  match uwrite (sealFrame key nonce p) with
  | .error e => .error e
  | .ok _ => .ok (sealFrame key nonce p).length

/-- Writer.Write from part_000: encrypts via Box.Encrypt, performs one
underlying write, and on success returns the count reported by the
underlying writer (which, for a conforming io.Writer, is the frame
length). -/
def writerWrite (peersPub priv : Nat) (nonce p : List Nat)
    (uwrite : List Nat → Except String Nat) : Except String Nat :=
  match uwrite (boxEncrypt peersPub priv nonce p) with
  | .error e => .error e
  | .ok n => .ok n

/-- Kinds of failures a secure read can report. The panicked kind records a
Go runtime panic from slicing em[24:] on input shorter than 24 bytes. -/
inductive ReadFailure where
  | ioError (e : String)
  | decrypt
  | panicked
deriving DecidableEq

/-- Result of a secure read call: the returned count n (Go int, main.go
returns -1 on decryption failure), the error, and the content of the
caller buffer after the call. -/
structure ReadResult where
  n : Int
  err : Option ReadFailure
  buf : List Nat
deriving DecidableEq

/-- Reader.Read from part_000. The underlying io.Reader call is modelled by
the bytes it deposits into the front of the caller buffer (rbytes) plus an
optional error. The code returns the raw error unchanged without decoding;
otherwise it decodes p[:n] with Box.Decrypt and on success copies the
plaintext into the front of the caller buffer. -/
def readerRead (peersPub priv : Nat) (rbytes : List Nat) (rerr : Option String)
    (p : List Nat) : ReadResult :=
  let p1 := rbytes ++ p.drop rbytes.length
  match rerr with
  | some e => ⟨(rbytes.length : Int), some (.ioError e), p1⟩
  | none =>
    match boxDecrypt peersPub priv (p1.take rbytes.length) with
    | .panicked => ⟨(rbytes.length : Int), some .panicked, p1⟩
    | .err => ⟨(rbytes.length : Int), some .decrypt, p1⟩
    | .ok dm =>
      let k := min p1.length dm.length
      ⟨(k : Int), none, dm.take k ++ p1.drop k⟩

/-- Leading zero-byte strip, the head direction of bytes.Trim(p, zero). -/
def dropLead0 : List Nat → List Nat
  | [] => []
  | b :: bs => if b = 0 then dropLead0 bs else b :: bs

/-- bytes.Trim(p, zero) from main.go SecureReader.Read: strips zero bytes
from both ends of the whole buffer. -/
def trimZeros (l : List Nat) : List Nat :=
  (dropLead0 (dropLead0 l).reverse).reverse

/-- SecureReader.Read from main.go. After a successful raw read the WHOLE
buffer (not just the n read bytes) is stripped of leading and trailing
zero bytes, the first 24 remaining bytes are taken as the nonce, and
em[24:] is opened under the precomputed key; failure returns -1 with the
key-pair error. -/
def secureReaderRead (key : Nat) (rbytes : List Nat) (rerr : Option String)
    (p : List Nat) : ReadResult :=
  let p1 := rbytes ++ p.drop rbytes.length
  match rerr with
  | some e => ⟨(rbytes.length : Int), some (.ioError e), p1⟩
  | none =>
    let em := trimZeros p1
    if em.length < 24 then ⟨(rbytes.length : Int), some .panicked, p1⟩
    else
      match secretboxOpen key (em.take 24) (em.drop 24) with
      | some dm =>
        let k := min p1.length dm.length
        ⟨(k : Int), none, dm.take k ++ p1.drop k⟩
      | none => ⟨(-1 : Int), some .decrypt, p1⟩

/-- Helper: a raw read that succeeds but whose bytes fail Box.Decrypt makes
Reader.Read report the decryption failure with the buffer still holding
the raw frame bytes the underlying read deposited. -/
theorem readerRead_decrypt_err (peersPub priv : Nat) (rbytes p : List Nat)
    (hd : boxDecrypt peersPub priv rbytes = .err) :
    readerRead peersPub priv rbytes none p =
      ⟨(rbytes.length : Int), some .decrypt, rbytes ++ p.drop rbytes.length⟩ := by
  have h1 : (rbytes ++ p.drop rbytes.length).take rbytes.length = rbytes :=
    List.take_left rbytes (p.drop rbytes.length)
  simp only [readerRead, h1, hd]

/-- C2 counterexample: with a 1-byte plaintext and an underlying writer that
accepts the full frame, SecureWriter.Write returns 41 (the on-wire frame
length), not 1 (the plaintext length), so the claim as stated is false. -/
theorem c2_counterexample :
    secureWriterWrite 5 (List.replicate 24 0) [9] (fun l => Except.ok l.length) =
      .ok 41 ∧ (41 : Nat) ≠ 1 :=
  ⟨rfl, by decide⟩

/-- C2 amended: when the underlying stream accepts the full frame, a secure
write succeeds and returns the frame on-wire length, plaintext length plus
40 bytes of nonce and tag overhead (main.go returns len(em) directly;
part_000 returns the count reported by the conforming underlying
writer). -/
theorem c2_write_returns_frame_length (key peersPub priv : Nat)
    (nonce p : List Nat) (uw : List Nat → Except String Nat)
    (hn : nonce.length = 24) (hs : ∀ l, uw l = .ok l.length) :
    secureWriterWrite key nonce p uw = .ok (p.length + 40) ∧
    writerWrite peersPub priv nonce p uw = .ok (p.length + 40) := by
  have h1 := sealFrame_length key nonce p hn
  have h2 := sealFrame_length (precompute peersPub priv) nonce p hn
  constructor
  · simp only [secureWriterWrite, hs, h1]
  · simp only [writerWrite, boxEncrypt, hs, h2]

/-- C2 witness: a 3-byte plaintext written through both writer
implementations over an accepting stream reports 43 bytes written. -/
theorem c2_witness :
    secureWriterWrite 5 (List.replicate 24 0) [1, 2, 3]
        (fun l => Except.ok l.length) = .ok 43 ∧
    writerWrite 2 3 (List.replicate 24 0) [1, 2, 3]
        (fun l => Except.ok l.length) = .ok 43 :=
  c2_write_returns_frame_length 5 2 3 (List.replicate 24 0) [1, 2, 3]
    (fun l => Except.ok l.length) (by simp) (fun l => rfl)

/-- C7: when the underlying read fails, both reader implementations return
that exact error value unchanged together with the raw read count, and no
decoding is attempted - the result does not depend on any key, and the
buffer holds only what the raw read deposited. -/
theorem c7_io_error_propagated (peersPub priv key : Nat) (rbytes p : List Nat)
    (e : String) :
    readerRead peersPub priv rbytes (some e) p =
      ⟨(rbytes.length : Int), some (.ioError e), rbytes ++ p.drop rbytes.length⟩ ∧
    secureReaderRead key rbytes (some e) p =
      ⟨(rbytes.length : Int), some (.ioError e), rbytes ++ p.drop rbytes.length⟩ :=
  ⟨rfl, rfl⟩

/-- C6 counterexample: the caller buffer starts as fifty 7-bytes; the raw
read deposits a 40-byte garbage frame, decryption fails, and the buffer
after the call differs from the buffer before it (its prefix now holds the
raw frame bytes), so the claim that the buffer is unchanged is false. -/
theorem c6_counterexample :
    (readerRead 1 1 (List.replicate 40 1) none (List.replicate 50 7)).buf ≠
      List.replicate 50 7 ∧
    (readerRead 1 1 (List.replicate 40 1) none (List.replicate 50 7)).err =
      some .decrypt := by
  decide

/-- Helper: when the trimmed buffer passes the length guard but the AEAD
open rejects it, SecureReader.Read from main.go reports the decryption
failure with count -1 and the buffer still holds what the raw read
deposited. -/
theorem secureReaderRead_decrypt_err (key : Nat) (rbytes p : List Nat)
    (h24 : ¬ (trimZeros (rbytes ++ p.drop rbytes.length)).length < 24)
    (hopen : secretboxOpen key
        ((trimZeros (rbytes ++ p.drop rbytes.length)).take 24)
        ((trimZeros (rbytes ++ p.drop rbytes.length)).drop 24) = none) :
    secureReaderRead key rbytes none p =
      ⟨(-1 : Int), some .decrypt, rbytes ++ p.drop rbytes.length⟩ := by
  simp only [secureReaderRead]
  rw [if_neg h24, hopen]

/-- C6 amended: for both secure reader implementations, when the raw read
succeeds but authenticated decryption of the deposited frame fails, the
call reports the decryption failure (part_000 returns the read count,
main.go returns -1) and no plaintext bytes are copied into the caller
buffer - the buffer is exactly as the raw read left it, raw frame bytes in
front of the untouched remainder. -/
theorem c6_no_plaintext_copy_on_failure (peersPub priv key : Nat)
    (rbytes p : List Nat)
    (hd : boxDecrypt peersPub priv rbytes = .err)
    (h24 : ¬ (trimZeros (rbytes ++ p.drop rbytes.length)).length < 24)
    (hopen : secretboxOpen key
        ((trimZeros (rbytes ++ p.drop rbytes.length)).take 24)
        ((trimZeros (rbytes ++ p.drop rbytes.length)).drop 24) = none) :
    readerRead peersPub priv rbytes none p =
      ⟨(rbytes.length : Int), some .decrypt, rbytes ++ p.drop rbytes.length⟩ ∧
    secureReaderRead key rbytes none p =
      ⟨(-1 : Int), some .decrypt, rbytes ++ p.drop rbytes.length⟩ :=
  ⟨readerRead_decrypt_err peersPub priv rbytes p hd,
    secureReaderRead_decrypt_err key rbytes p h24 hopen⟩

/-- C6 witness: a concrete 40-byte corrupted frame read into a 64-byte
buffer fails decryption in both reader implementations and leaves the raw
frame bytes in the buffer. -/
theorem c6_witness :
    readerRead 1 1 (List.replicate 40 1) none (List.replicate 64 7) =
      ⟨(40 : Int), some .decrypt,
        List.replicate 40 1 ++ (List.replicate 64 7).drop 40⟩ ∧
    secureReaderRead 1 (List.replicate 40 1) none (List.replicate 64 7) =
      ⟨(-1 : Int), some .decrypt,
        List.replicate 40 1 ++ (List.replicate 64 7).drop 40⟩ :=
  c6_no_plaintext_copy_on_failure 1 1 1 (List.replicate 40 1)
    (List.replicate 64 7) (by decide) (by decide) (by decide)

theorem dropLead0_head (l : List Nat) : (dropLead0 l).head? ≠ some 0 := by
  induction l with
  | nil => simp [dropLead0]
  | cons b bs ih =>
    by_cases hb : b = 0
    · simpa [dropLead0, hb] using ih
    · simp [dropLead0, hb]

theorem dropLead0_getLast (l : List Nat) :
    (dropLead0 l).getLast? = none ∨ (dropLead0 l).getLast? = l.getLast? := by
  induction l with
  | nil => left; rfl
  | cons b bs ih =>
    by_cases hb : b = 0
    · rcases ih with h | h
      · left; simpa [dropLead0, hb] using h
      · rcases bs with _ | ⟨c, cs⟩
        · left; simp [dropLead0, hb]
        · right
          have e1 : dropLead0 (b :: c :: cs) = dropLead0 (c :: cs) := by
            simp [dropLead0, hb]
          rw [e1, h]
          exact List.getLast?_cons_cons.symm
    · right; simp [dropLead0, hb]

theorem trimZeros_head (l : List Nat) : (trimZeros l).head? ≠ some 0 := by
  unfold trimZeros
  rw [List.head?_reverse]
  rcases dropLead0_getLast (dropLead0 l).reverse with h | h
  · simp [h]
  · rw [h, List.getLast?_reverse]
    exact dropLead0_head l

theorem trimZeros_getLast (l : List Nat) : (trimZeros l).getLast? ≠ some 0 := by
  unfold trimZeros
  rw [List.getLast?_reverse]
  exact dropLead0_head (dropLead0 l).reverse

/-- C9: main.go SecureReader.Read trims zero bytes from the whole buffer
before splitting off the nonce; hence for every transmitted frame whose
first or last byte is zero, read into a zero-initialized buffer of length
frame length plus k, the bytes submitted to AEAD decryption differ from
the transmitted frame. -/
theorem c9_trim_alters_frame (f : List Nat) (k : Nat)
    (h : f.head? = some 0 ∨ f.getLast? = some 0) :
    trimZeros (f ++ (List.replicate (f.length + k) 0).drop f.length) ≠ f := by
  have hdrop : (List.replicate (f.length + k) 0).drop f.length =
      List.replicate k 0 := by
    rw [List.replicate_add, List.drop_left' (List.length_replicate f.length 0)]
  rw [hdrop]
  intro heq
  rcases h with h | h
  · exact trimZeros_head (f ++ List.replicate k 0) (by rw [heq]; exact h)
  · exact trimZeros_getLast (f ++ List.replicate k 0) (by rw [heq]; exact h)

/-- C9 witness: the frame 00 01 read into a 5-byte zeroed buffer is trimmed
to 01 before decryption, which differs from the transmitted frame. -/
theorem c9_witness :
    trimZeros ([0, 1] ++ (List.replicate (2 + 3) 0).drop 2) ≠ [0, 1] :=
  c9_trim_alters_frame [0, 1] 3 (Or.inl rfl)

/-- C3: decoding inputs shorter than 24 bytes panics (Go slice bounds out
of range on em[24:]) instead of returning the decode error the spec
requires; only lengths from 24 up to 39 produce the error without an AEAD
attempt. Evaluated on an empty input, a 23-byte input and a 30-byte
input. -/
theorem c3_short_frame_panics :
    boxDecrypt 2 3 (List.replicate 23 1) = .panicked ∧
    boxDecrypt 2 3 [] = .panicked ∧
    boxDecrypt 2 3 (List.replicate 30 1) = .err := by
  refine ⟨by decide, by decide, by decide⟩

/-- One raw connection as seen by the fixed 32-byte key exchange: the bytes
the single key Read call deposits, its error, and the error of the single
key Write call. -/
structure HandshakeConn where
  readBytes : List Nat
  readFailure : Option String
  writeFailure : Option String
deriving DecidableEq

/-- State both roles reach on handshake success. -/
structure Established where
  myPub : Nat
  myPriv : Nat
  peersKey : List Nat
deriving DecidableEq

/-- peersKey assembly: copy(peersKey[:], key[:n]) into a zeroed 32-byte
array, so fewer than 32 read bytes are zero-padded. -/
def padKey32 (bs : List Nat) : List Nat := (bs ++ List.replicate 32 0).take 32

/-- Dial from part_000, after net.Dial and NewBox succeed. The code runs
n, err := conn.Read(key) but never checks that err: the variable is
overwritten by the subsequent conn.Write result, so only a write failure
aborts, and the peer key is whatever the read deposited, zero-padded. -/
def dialHandshake (pub priv : Nat) (c : HandshakeConn) :
    Except String Established :=
  match c.writeFailure with
  | some e => .error e
  | none => .ok ⟨pub, priv, padKey32 c.readBytes⟩

/-- Key exchange of handle from part_000: write own key (abort on error),
then one Read of the 32-byte key buffer (abort on error), zero-padding
whatever single-call count arrived. -/
def handleHandshake (pub priv : Nat) (c : HandshakeConn) :
    Except String Established :=
  match c.writeFailure with
  | some e => .error e
  | none =>
    match c.readFailure with
    | some e => .error e
    | none => .ok ⟨pub, priv, padKey32 c.readBytes⟩

/-- C4: Dial ignores the error of its key-exchange Read. On a connection
whose key read fails with EOF delivering nothing while the key write
succeeds, Dial still reaches the established state with an all-zero peer
key instead of aborting; the responder side (handle) does abort on the
same failure. -/
theorem c4_dial_ignores_read_error :
    dialHandshake 81 2 ⟨[], some "EOF", none⟩ =
      .ok ⟨81, 2, List.replicate 32 0⟩ ∧
    handleHandshake 81 2 ⟨[], some "EOF", none⟩ = .error "EOF" := by
  constructor
  · rfl
  · rfl

/-- C5: neither role loops to accumulate 32 key bytes. When the single raw
Read call returns only 16 of the 32 key bytes (no error), both Dial and
handle proceed to the established state with a peer key made of those 16
bytes zero-padded, rather than reading the remaining bytes. -/
theorem c5_single_read_zero_pads :
    dialHandshake 81 2 ⟨List.replicate 16 5, none, none⟩ =
      .ok ⟨81, 2, List.replicate 16 5 ++ List.replicate 16 0⟩ ∧
    handleHandshake 81 2 ⟨List.replicate 16 5, none, none⟩ =
      .ok ⟨81, 2, List.replicate 16 5 ++ List.replicate 16 0⟩ := by
  constructor
  · rfl
  · rfl

/-- C8: every seal call places the freshly drawn 24 random bytes as the
first 24 bytes of the produced frame, so two seal calls under the same key
whose drawn random bytes differ produce frames with different nonce
fields. -/
theorem c8_nonce_is_frame_prefix (peersPub priv : Nat) (m n1 n2 : List Nat)
    (h1 : n1.length = 24) (h2 : n2.length = 24) (hne : n1 ≠ n2) :
    (boxEncrypt peersPub priv n1 m).take 24 = n1 ∧
    (boxEncrypt peersPub priv n2 m).take 24 = n2 ∧
    (boxEncrypt peersPub priv n1 m).take 24 ≠
      (boxEncrypt peersPub priv n2 m).take 24 := by
  have e1 : (boxEncrypt peersPub priv n1 m).take 24 = n1 :=
    sealFrame_take24 (precompute peersPub priv) n1 m h1
  have e2 : (boxEncrypt peersPub priv n2 m).take 24 = n2 :=
    sealFrame_take24 (precompute peersPub priv) n2 m h2
  exact ⟨e1, e2, by rw [e1, e2]; exact hne⟩

/-- C8 witness: two concrete draws differing in their last byte yield
frames for the same one-byte plaintext whose nonce fields differ. -/
theorem c8_witness :
    (boxEncrypt 2 3 (List.replicate 24 0) [7]).take 24 = List.replicate 24 0 ∧
    (boxEncrypt 2 3 (List.replicate 23 0 ++ [1]) [7]).take 24 =
      List.replicate 23 0 ++ [1] ∧
    (boxEncrypt 2 3 (List.replicate 24 0) [7]).take 24 ≠
      (boxEncrypt 2 3 (List.replicate 23 0 ++ [1]) [7]).take 24 :=
  c8_nonce_is_frame_prefix 2 3 [7] (List.replicate 24 0)
    (List.replicate 23 0 ++ [1]) (by simp) (by simp) (by decide)

/-- Take across a triple append when the first two parts fit entirely. -/
theorem take_append3 (a b c : List Nat) (n : Nat)
    (h : a.length + b.length ≤ n) :
    (a ++ (b ++ c)).take n = a ++ (b ++ c.take (n - a.length - b.length)) := by
  rw [List.take_append_eq_append_take, List.take_of_length_le (by omega),
      List.take_append_eq_append_take, List.take_of_length_le (by omega)]

/-- One iteration of the echo loop in handle from part_000: a fresh
zero-initialized MAX_BUFFER byte buffer receives one raw read, which can
deliver at most MAX_BUFFER bytes of the incoming data, and the result is
decoded by Reader.Read. -/
def handleEchoStep (peersPub priv : Nat) (incoming : List Nat) : ReadResult :=
  readerRead peersPub priv (incoming.take MAX_BUFFER) none
    (List.replicate MAX_BUFFER 0)

/-- C10: a frame for a plaintext longer than 984 bytes exceeds the fixed
1024-byte read buffer of the echo loop; the read truncates it to 1024
bytes and the iteration ends with a decryption failure (err field) instead
of echoing, even under the matching key. -/
theorem c10_oversized_frame_rejected (pub priv : Nat) (nonce m : List Nat)
    (hn : nonce.length = 24) (h1 : 984 < m.length) (h2 : m.length < 16777216) :
    MAX_BUFFER < (sealFrame (precompute pub priv) nonce m).length ∧
    handleEchoStep pub priv (sealFrame (precompute pub priv) nonce m) =
      ⟨(1024 : Int), some .decrypt,
        (sealFrame (precompute pub priv) nonce m).take MAX_BUFFER⟩ := by
  have hflen : (sealFrame (precompute pub priv) nonce m).length = m.length + 40 :=
    sealFrame_length (precompute pub priv) nonce m hn
  have htag := tagFn_length (precompute pub priv) nonce
    (encBytes (precompute pub priv) nonce 0 m)
  have hblen : (encBytes (precompute pub priv) nonce 0 m).length = m.length :=
    encBytes_length (precompute pub priv) nonce m 0
  have htake : (sealFrame (precompute pub priv) nonce m).take MAX_BUFFER =
      nonce ++ (tagFn (precompute pub priv) nonce
          (encBytes (precompute pub priv) nonce 0 m) ++
        (encBytes (precompute pub priv) nonce 0 m).take 984) := by
    unfold sealFrame secretboxSeal
    rw [take_append3 _ _ _ _ (by rw [hn, htag]; unfold MAX_BUFFER; omega)]
    rw [hn, htag]
    rfl
  have hrblen : ((sealFrame (precompute pub priv) nonce m).take MAX_BUFFER).length
      = 1024 := by
    rw [htake]
    simp only [List.length_append, List.length_take, hn, htag, hblen]
    omega
  have hcond : tagFn (precompute pub priv) nonce
        (encBytes (precompute pub priv) nonce 0 m) ≠
      tagFn (precompute pub priv) nonce
        ((encBytes (precompute pub priv) nonce 0 m).take 984) := by
    intro hEq
    have hlenEq := tagFn_eq_length (precompute pub priv) nonce
      (encBytes (precompute pub priv) nonce 0 m)
      ((encBytes (precompute pub priv) nonce 0 m).take 984) hEq
    rw [List.length_take, hblen] at hlenEq
    omega
  have hd : boxDecrypt pub priv
      ((sealFrame (precompute pub priv) nonce m).take MAX_BUFFER) = .err := by
    rw [htake]
    unfold boxDecrypt openFrame
    rw [if_neg (by
      simp only [List.length_append, List.length_take, hn, htag, hblen]
      omega)]
    rw [List.take_left' hn, List.drop_left' hn]
    unfold secretboxOpen
    rw [List.take_left' htag, List.drop_left' htag]
    rw [if_neg (by
      simp only [List.length_append, List.length_take, htag, hblen]
      omega)]
    rw [if_neg hcond]
  refine ⟨by rw [hflen]; unfold MAX_BUFFER; omega, ?_⟩
  unfold handleEchoStep
  rw [readerRead_decrypt_err pub priv _ _ hd]
  have hdrop : (List.replicate MAX_BUFFER 0).drop
      ((sealFrame (precompute pub priv) nonce m).take MAX_BUFFER).length = [] := by
    rw [hrblen]
    exact List.drop_eq_nil_of_le
      (by simp only [List.length_replicate, MAX_BUFFER]; omega)
  rw [hdrop, List.append_nil, hrblen]
  rfl

/-- C10 witness: a 985-byte plaintext sealed under concrete keys and a
concrete nonce yields a frame longer than the buffer which the echo
iteration rejects with a decryption failure. -/
theorem c10_witness :
    MAX_BUFFER < (sealFrame (precompute 3 2) (List.replicate 24 2)
      (List.replicate 985 1)).length ∧
    handleEchoStep 3 2 (sealFrame (precompute 3 2) (List.replicate 24 2)
        (List.replicate 985 1)) =
      ⟨(1024 : Int), some .decrypt,
        (sealFrame (precompute 3 2) (List.replicate 24 2)
          (List.replicate 985 1)).take MAX_BUFFER⟩ :=
  c10_oversized_frame_rejected 3 2 (List.replicate 24 2) (List.replicate 985 1)
    (by simp only [List.length_replicate])
    (by simp only [List.length_replicate]; omega)
    (by simp only [List.length_replicate]; omega)

end Challenge2
